import Mathlib

/-!
Verification development for the craftora marketplace application.

The embedding models the order-lifecycle core of the repository:
the cart-to-order checkout workflow (`src/src/pages/Checkout.tsx`,
`handlePlaceOrder`), the seller-side order status updates
(`src/src/pages/SellerDashboard.tsx`, `updateOrderStatus` and the
action buttons rendered per status), the review/rating aggregation
(the `ReviewPage.handleSubmit` source file), and the add-to-cart
operation (`ProductDetail.handleAddToCart`).

Modelling conventions:
* JavaScript numbers are modelled as exact rationals (`ℚ`) for prices,
  amounts and rating averages, and as `ℕ` for quantities and counters.
* Record ids generated by the store are modelled as natural numbers
  drawn from a `nextId` counter in the store state; string ids that the
  code compares for equality (seller ids, product ids, user ids) stay
  `String`.
* The persistent store is explicit state (`Store`): each collection is a
  list of records, and every `create`/`update`/`deleteMany` call is a
  pure state transformation.
* A store call that can throw is modelled with a failure oracle
  `fails : Nat → Bool` indexed by the position of the call in program
  order; a throwing call performs no write and aborts the remaining
  calls of the `try` block (control jumps to the `catch`).
* Timestamp fields (`createdAt`/`updatedAt`) and fields never read by
  the modelled operations are omitted from the records.
-/

namespace Craftora

/-- Order status values from `src/src/types/index.ts` (`OrderStatus`). -/
inductive OrderStatus where
  | pending
  | confirmed
  | preparing
  | ready
  | delivered
  | cancelled
deriving DecidableEq

/-- Payment method values from `src/src/types/index.ts` (`PaymentMethod`). -/
inductive PaymentMethod where
  | online
  | cashOnDelivery
deriving DecidableEq

/-- Payment status values from `src/src/types/index.ts` (`PaymentStatus`). -/
inductive PaymentStatus where
  | pending
  | paid
  | failed
deriving DecidableEq

/-- Product record (`src/src/types/index.ts`, `Product`), restricted to the
fields read or written by the modelled operations. -/
structure Product where
  id : String
  sellerId : String
  title : String
  price : ℚ
  isAvailable : String
  stockQuantity : Nat
  ratingAverage : ℚ
  totalReviews : Nat
deriving DecidableEq

/-- Seller record (`src/src/types/index.ts`, `Seller`), restricted to the
fields read or written by the modelled operations. -/
structure Seller where
  id : String
  userId : String
  ratingAverage : ℚ
  totalReviews : Nat
  totalOrders : Nat
  totalEarnings : ℚ
deriving DecidableEq

/-- Cart row (`src/src/types/index.ts`, `CartItem`); the store-generated id
is modelled as a natural number. -/
structure CartItem where
  id : Nat
  userId : String
  productId : String
  quantity : Nat
deriving DecidableEq

/-- Cart row joined with its (possibly absent) product, as produced by
`loadCart` in `Checkout.tsx` (`CartItemWithProduct` in the types file:
`product` is optional because `products.get` may find nothing). -/
structure CartItemWithProduct where
  id : Nat
  userId : String
  productId : String
  quantity : Nat
  product : Option Product
deriving DecidableEq

/-- Order record (`src/src/types/index.ts`, `Order`), without timestamps. -/
structure Order where
  id : Nat
  userId : String
  orderNumber : String
  sellerId : String
  buyerName : String
  buyerPhone : String
  deliveryAddress : String
  totalAmount : ℚ
  status : OrderStatus
  paymentMethod : PaymentMethod
  paymentStatus : PaymentStatus
deriving DecidableEq

/-- Order line record (`src/src/types/index.ts`, `OrderItem`), without
timestamps and without its own store-generated id (never read back). -/
structure OrderItem where
  userId : String
  orderId : Nat
  productId : String
  productTitle : String
  productPrice : ℚ
  quantity : Nat
  subtotal : ℚ
deriving DecidableEq

/-- Review record (`src/src/types/index.ts`, `Review`), without timestamps. -/
structure Review where
  userId : String
  orderId : Nat
  productId : String
  sellerId : String
  rating : ℚ
  comment : String
deriving DecidableEq

/-- The persistent store: one list per collection touched by the modelled
operations, plus the id counter for store-generated ids. -/
structure Store where
  orders : List Order
  orderItems : List OrderItem
  cart : List CartItem
  products : List Product
  sellers : List Seller
  reviews : List Review
  nextId : Nat
deriving DecidableEq

/-! Checkout workflow (`Checkout.tsx`, `handlePlaceOrder`). -/

/-- Seller id of a joined cart line, `item.product?.sellerId` under the JS
truthiness test `if (sellerId)`: an absent product or an empty-string
seller id yields nothing. -/
def sellerIdOf (it : CartItemWithProduct) : Option String :=
  match it.product with
  | some p => if p.sellerId = "" then none else some p.sellerId
  | none => none

/-- Price of a joined cart line, `item.product?.price || 0`. -/
def priceOf (it : CartItemWithProduct) : ℚ :=
  match it.product with
  | some p => p.price
  | none => 0

/-- Title of a joined cart line, `item.product?.title || ''`. -/
def titleOf (it : CartItemWithProduct) : String :=
  match it.product with
  | some p => p.title
  | none => ""

/-- Insertion into the insertion-ordered seller grouping, modelling
`if (!itemsBySeller[sellerId]) itemsBySeller[sellerId] = [];
itemsBySeller[sellerId].push(item)`. -/
def insertBySeller (acc : List (String × List CartItemWithProduct)) (sid : String)
    (it : CartItemWithProduct) : List (String × List CartItemWithProduct) :=
  match acc with
  | [] => [(sid, [it])]
  | (k, l) :: rest =>
    if k = sid then (k, l ++ [it]) :: rest
    else (k, l) :: insertBySeller rest sid it

/-- One step of the `cartItems.forEach` grouping loop in `handlePlaceOrder`. -/
def groupStep (acc : List (String × List CartItemWithProduct))
    (it : CartItemWithProduct) : List (String × List CartItemWithProduct) :=
  match sellerIdOf it with
  | some sid => insertBySeller acc sid it
  | none => acc

/-- The seller grouping built by `handlePlaceOrder` (`itemsBySeller`), as the
insertion-ordered association list produced by `Object.entries`. -/
def itemsBySeller (items : List CartItemWithProduct) :
    List (String × List CartItemWithProduct) :=
  items.foldl groupStep []

/-- Order total of one seller partition:
`items.reduce((acc, item) => acc + (item.product?.price || 0) * item.quantity, 0)`. -/
def orderTotal (items : List CartItemWithProduct) : ℚ :=
  items.foldl (fun acc it => acc + priceOf it * (it.quantity : ℚ)) 0

/-- Input of one `handlePlaceOrder` invocation: the signed-in user, the
delivery form fields, the chosen payment method, the loaded cart state, and
the stream of random order numbers (`CRFT-…`) consumed by the loop. -/
structure CheckoutInput where
  userId : String
  buyerName : String
  address : String
  phone : String
  paymentMethod : PaymentMethod
  cartItems : List CartItemWithProduct
  orderNumbers : Nat → String

/-- The Order record created for the `k`-th seller partition
(`blink.db.orders.create({...})` in `handlePlaceOrder`). -/
def mkOrder (inp : CheckoutInput) (k : Nat) (oid : Nat) (sid : String)
    (items : List CartItemWithProduct) : Order :=
  { id := oid
    userId := inp.userId
    orderNumber := inp.orderNumbers k
    sellerId := sid
    buyerName := inp.buyerName
    buyerPhone := inp.phone
    deliveryAddress := inp.address
    totalAmount := orderTotal items
    status := .pending
    paymentMethod := inp.paymentMethod
    paymentStatus := if inp.paymentMethod = .online then .paid else .pending }

/-- The OrderItem record created for one cart line of a partition
(`blink.db.orderItems.createMany(items.map(...))` in `handlePlaceOrder`). -/
def mkOrderItem (userId : String) (oid : Nat) (it : CartItemWithProduct) : OrderItem :=
  { userId := userId
    orderId := oid
    productId := it.productId
    productTitle := titleOf it
    productPrice := priceOf it
    quantity := it.quantity
    subtotal := priceOf it * (it.quantity : ℚ) }

/-- The per-seller creation loop of `handlePlaceOrder`
(`for (const [sellerId, items] of Object.entries(itemsBySeller))`).
Arguments: remaining partitions, store, partition index `k`, store-call
index `c`. Each iteration issues two store calls, `orders.create` and
`orderItems.createMany`; a call at index `c` with `fails c = true` throws,
performing no write and aborting the loop. Returns the store, the success
flag, and the next store-call index. -/
def processGroups (inp : CheckoutInput) (fails : Nat → Bool) :
    List (String × List CartItemWithProduct) → Store → Nat → Nat →
      Store × Bool × Nat
  | [], st, _, c => (st, true, c)
  | (sid, items) :: rest, st, k, c =>
    if fails c then (st, false, c)
    else
      let oid := st.nextId
      let st1 : Store :=
        { st with
          orders := st.orders ++ [mkOrder inp k oid sid items]
          nextId := oid + 1 }
      if fails (c + 1) then (st1, false, c + 1)
      else
        let st2 : Store :=
          { st1 with
            orderItems := st1.orderItems ++ items.map (mkOrderItem inp.userId oid) }
        processGroups inp fails rest st2 (k + 1) (c + 2)

/-- The `handlePlaceOrder` workflow of `Checkout.tsx`: the validation gate
`if (!address || !phone)` rejects empty fields before any write; otherwise
the seller partitions are processed in order, and — only if no call threw —
the final `blink.db.cart.deleteMany({ where: { user_id: user?.id } })`
removes every cart row of the buyer. A throw anywhere in the `try` block
jumps to the `catch`, so the cart deletion is skipped on failure. Returns
the store and whether the success path (`toast.success`) was reached. -/
def handlePlaceOrder (inp : CheckoutInput) (st : Store) (fails : Nat → Bool) :
    Store × Bool :=
  if inp.address = "" ∨ inp.phone = "" then (st, false)
  else
    match processGroups inp fails (itemsBySeller inp.cartItems) st 0 0 with
    | (st1, false, _) => (st1, false)
    | (st1, true, c) =>
      if fails c then (st1, false)
      else
        ({ st1 with cart := st1.cart.filter fun r => !(r.userId == inp.userId) }, true)

/-- The all-success failure oracle: no store call throws. -/
def noFail : Nat → Bool := fun _ => false

/-! Seller dashboard (`SellerDashboard.tsx`). -/

/-- The `updateOrderStatus` handler of `SellerDashboard.tsx`:
`blink.db.orders.update(orderId, { status: newStatus, updatedAt })` sets the
requested status on the matching order record, with no guard on the current
status. -/
def updateOrderStatus (st : Store) (orderId : Nat) (newStatus : OrderStatus) :
    Store :=
  { st with
    orders := st.orders.map fun o =>
      if o.id == orderId then { o with status := newStatus } else o }

/-- The status-changing action the dashboard UI renders for an order, from
the conditional buttons in `SellerDashboard.tsx` (pending → "Accept Order",
confirmed → "Start Preparing", preparing → "Ready for Delivery",
ready → "Mark Delivered"; no button for delivered or cancelled). -/
def sellerNextAction : OrderStatus → Option OrderStatus
  | .pending => some .confirmed
  | .confirmed => some .preparing
  | .preparing => some .ready
  | .ready => some .delivered
  | .delivered => none
  | .cancelled => none

/-! Review submission (`ReviewPage.handleSubmit` in the unnamed page source). -/

/-- The product aggregate update performed for one review:
`newTotalReviews = product.totalReviews + 1` and
`newRatingAverage = (product.ratingAverage * product.totalReviews
+ review.rating) / newTotalReviews`. -/
def reviewedProduct (p : Product) (rating : ℚ) : Product :=
  { p with
    ratingAverage :=
      (p.ratingAverage * (p.totalReviews : ℚ) + rating) / ((p.totalReviews : ℚ) + 1)
    totalReviews := p.totalReviews + 1 }

/-- One iteration of the `for (const item of (order.items || []))` loop in
`handleSubmit`: create the Review record, then fetch the product by id and,
if present, write back the running-mean aggregates. -/
def submitOneReview (userId : String) (orderId : Nat) (sellerId : String)
    (ratings : String → ℚ) (comments : String → String) (st : Store)
    (item : OrderItem) : Store :=
  let st1 : Store :=
    { st with
      reviews := st.reviews ++
        [{ userId := userId
           orderId := orderId
           productId := item.productId
           sellerId := sellerId
           rating := ratings item.productId
           comment := comments item.productId }] }
  match st1.products.find? (fun p => p.id == item.productId) with
  | none => st1
  | some prod =>
    let upd := reviewedProduct prod (ratings item.productId)
    { st1 with
      products := st1.products.map fun p =>
        if p.id == item.productId then
          { p with ratingAverage := upd.ratingAverage, totalReviews := upd.totalReviews }
        else p }

/-- The `handleSubmit` workflow of the review page: one review per order
line with the product aggregate update, then one seller update adding
`order.items?.length || 0` to the seller's `total_reviews` (the seller's
`rating_average` is not written in this path). -/
def handleSubmit (userId : String) (order : Order) (items : List OrderItem)
    (ratings : String → ℚ) (comments : String → String) (st : Store) : Store :=
  let st1 := items.foldl (submitOneReview userId order.id order.sellerId ratings comments) st
  match st1.sellers.find? (fun s => s.id == order.sellerId) with
  | none => st1
  | some sel =>
    { st1 with
      sellers := st1.sellers.map fun s =>
        if s.id == order.sellerId then
          { s with totalReviews := sel.totalReviews + items.length }
        else s }

/-! Add to cart (`ProductDetail.handleAddToCart` in the unnamed page source
bundled with `Onboarding.tsx`). -/

/-- The `handleAddToCart` store effect: list the cart rows matching
`(userId, productId)`; if one exists, update the first match to
`existing.quantity + quantity`; otherwise create a fresh row with the given
quantity. -/
def addToCart (st : Store) (userId productId : String) (quantity : Nat) : Store :=
  match st.cart.find? (fun c => c.userId == userId && c.productId == productId) with
  | some existing =>
    { st with
      cart := st.cart.map fun c =>
        if c.id == existing.id then
          { c with quantity := existing.quantity + quantity }
        else c }
  | none =>
    { st with
      cart := st.cart ++
        [{ id := st.nextId, userId := userId, productId := productId, quantity := quantity }]
      nextId := st.nextId + 1 }

/-- Repeated `addToCart` calls for one (user, product) pair, one call per
quantity in the list. -/
def addToCartAll (st : Store) (userId productId : String) (qs : List Nat) : Store :=
  qs.foldl (fun s q => addToCart s userId productId q) st

/-! Derived forms used to state and prove the properties. -/

/-- The list of Order records the checkout loop creates for the given
partitions, starting at store id `oid` and partition index `k`. -/
def ordersSpec (inp : CheckoutInput) :
    List (String × List CartItemWithProduct) → Nat → Nat → List Order
  | [], _, _ => []
  | (sid, items) :: rest, oid, k =>
    mkOrder inp k oid sid items :: ordersSpec inp rest (oid + 1) (k + 1)

/-- The list of OrderItem records the checkout loop creates for the given
partitions, starting at store id `oid`. -/
def itemsSpec (inp : CheckoutInput) :
    List (String × List CartItemWithProduct) → Nat → List OrderItem
  | [], _ => []
  | (_, items) :: rest, oid =>
    items.map (mkOrderItem inp.userId oid) ++ itemsSpec inp rest (oid + 1)

/-- Concatenation of the item lists of all partitions. -/
def flatGroups : List (String × List CartItemWithProduct) → List CartItemWithProduct
  | [] => []
  | g :: rest => g.2 ++ flatGroups rest

/-- Observable content of a created order line: product id, quantity,
unit price. -/
def itemLine (oi : OrderItem) : String × Nat × ℚ :=
  (oi.productId, oi.quantity, oi.productPrice)

/-- Observable content of a cart line: product id, quantity, unit price. -/
def cartLine (it : CartItemWithProduct) : String × Nat × ℚ :=
  (it.productId, it.quantity, priceOf it)

/-- Structural invariant of the seller grouping: seller keys are distinct,
every partition is nonempty, and every item of a partition carries that
partition's seller id. -/
def GroupsWF (gs : List (String × List CartItemWithProduct)) : Prop :=
  (gs.map Prod.fst).Nodup ∧
  ∀ g ∈ gs, g.2 ≠ [] ∧ ∀ it ∈ g.2, sellerIdOf it = some g.1

/-! Concrete sample data used to evaluate the operations on closed inputs. -/

/-- Sample product of seller `s1`, price 100, aggregates (4, 2). -/
def exProduct1 : Product :=
  { id := "p1", sellerId := "s1", title := "Jam", price := 100,
    isAvailable := "1", stockQuantity := 5, ratingAverage := 4, totalReviews := 2 }

/-- Sample product of seller `s2`, price 50. -/
def exProduct2 : Product :=
  { id := "p2", sellerId := "s2", title := "Mug", price := 50,
    isAvailable := "1", stockQuantity := 3, ratingAverage := 0, totalReviews := 0 }

/-- Cart line of user `u` for `exProduct1`, quantity 2. -/
def exItem1 : CartItemWithProduct :=
  { id := 10, userId := "u", productId := "p1", quantity := 2, product := some exProduct1 }

/-- Cart line of user `u` for `exProduct2`, quantity 1. -/
def exItem2 : CartItemWithProduct :=
  { id := 11, userId := "u", productId := "p2", quantity := 1, product := some exProduct2 }

/-- Cart line of user `u` whose product lookup found nothing. -/
def exOrphan : CartItemWithProduct :=
  { id := 12, userId := "u", productId := "pX", quantity := 3, product := none }

/-- Sample seller record with aggregates (2, 10). -/
def exSeller1 : Seller :=
  { id := "s1", userId := "su", ratingAverage := 2, totalReviews := 10,
    totalOrders := 4, totalEarnings := 99 }

/-- Sample store holding the cart rows of users `u` and `v`. -/
def exStore : Store :=
  { orders := [], orderItems := []
    cart := [{ id := 10, userId := "u", productId := "p1", quantity := 2 },
             { id := 11, userId := "u", productId := "p2", quantity := 1 },
             { id := 13, userId := "v", productId := "p1", quantity := 1 }]
    products := [exProduct1, exProduct2], sellers := [exSeller1]
    reviews := [], nextId := 100 }

/-- Checkout input of user `u` with a two-seller cart. -/
def exInput : CheckoutInput :=
  { userId := "u", buyerName := "Bob", address := "addr", phone := "123",
    paymentMethod := .online, cartItems := [exItem1, exItem2],
    orderNumbers := fun _ => "CRFT-X" }

/-- Checkout input whose cart holds a resolvable line and an orphan line. -/
def exInputOrphan : CheckoutInput :=
  { userId := "u", buyerName := "Bob", address := "addr", phone := "123",
    paymentMethod := .online, cartItems := [exItem1, exOrphan],
    orderNumbers := fun _ => "CRFT-X" }

/-- Checkout input with an empty delivery address. -/
def exInputNoAddr : CheckoutInput :=
  { userId := "u", buyerName := "Bob", address := "", phone := "123",
    paymentMethod := .online, cartItems := [exItem1],
    orderNumbers := fun _ => "CRFT-X" }

/-- Failure oracle making the first store call of the workflow throw. -/
def failFirst : Nat → Bool := fun c => c == 0

/-- Sample order of seller `s1` in the `delivered` status. -/
def exOrderDelivered : Order :=
  { id := 7, userId := "u", orderNumber := "N1", sellerId := "s1",
    buyerName := "Bob", buyerPhone := "123", deliveryAddress := "addr",
    totalAmount := 200, status := .delivered, paymentMethod := .online,
    paymentStatus := .paid }

/-- Store holding only `exOrderDelivered`. -/
def exStoreDelivered : Store :=
  { orders := [exOrderDelivered], orderItems := [], cart := [], products := [],
    sellers := [], reviews := [], nextId := 8 }

/-- Order line of `exOrderDelivered` for `exProduct1`. -/
def exOrderItem1 : OrderItem :=
  { userId := "u", orderId := 7, productId := "p1", productTitle := "Jam",
    productPrice := 100, quantity := 2, subtotal := 200 }

/-- Store for a review-submission run on `exOrderDelivered`. -/
def exStoreReview : Store :=
  { orders := [exOrderDelivered], orderItems := [exOrderItem1], cart := [],
    products := [exProduct1, exProduct2], sellers := [exSeller1],
    reviews := [], nextId := 200 }

/-- Store with an empty cart collection. -/
def exStoreEmpty : Store :=
  { orders := [], orderItems := [], cart := [], products := [], sellers := [],
    reviews := [], nextId := 0 }

/-! Lemmas about the checkout loop. -/

theorem processGroups_frame (inp : CheckoutInput) (fails : Nat → Bool) :
    ∀ (gs : List (String × List CartItemWithProduct)) (st : Store) (k c : Nat),
      (processGroups inp fails gs st k c).1.products = st.products ∧
      (processGroups inp fails gs st k c).1.sellers = st.sellers ∧
      (processGroups inp fails gs st k c).1.reviews = st.reviews ∧
      (processGroups inp fails gs st k c).1.cart = st.cart := by
  intro gs
  induction gs with
  | nil => intro st k c; exact ⟨rfl, rfl, rfl, rfl⟩
  | cons g rest ih =>
    intro st k c
    obtain ⟨sid, items⟩ := g
    simp only [processGroups]
    cases h0 : fails c with
    | true => simp
    | false =>
      cases h1 : fails (c + 1) with
      | true => simp
      | false =>
        simp only [Bool.false_eq_true, if_false]
        exact ih _ _ _

theorem processGroups_noFail (inp : CheckoutInput) :
    ∀ (gs : List (String × List CartItemWithProduct)) (st : Store) (k c : Nat),
      (processGroups inp noFail gs st k c).1.orders
          = st.orders ++ ordersSpec inp gs st.nextId k ∧
      (processGroups inp noFail gs st k c).1.orderItems
          = st.orderItems ++ itemsSpec inp gs st.nextId ∧
      (processGroups inp noFail gs st k c).1.nextId = st.nextId + gs.length ∧
      (processGroups inp noFail gs st k c).2.1 = true := by
  intro gs
  induction gs with
  | nil => intro st k c; simp [processGroups, ordersSpec, itemsSpec]
  | cons g rest ih =>
    intro st k c
    obtain ⟨sid, items⟩ := g
    simp only [processGroups, noFail, Bool.false_eq_true, if_false]
    obtain ⟨ho, hi, hn, hs⟩ :=
      ih { st with
             orders := st.orders ++ [mkOrder inp k st.nextId sid items]
             orderItems :=
               st.orderItems ++ items.map (mkOrderItem inp.userId st.nextId)
             nextId := st.nextId + 1 } (k + 1) (c + 2)
    refine ⟨?_, ?_, ?_, ?_⟩
    · rw [ho]; simp [ordersSpec]
    · rw [hi]; simp [itemsSpec]
    · rw [hn]; simp; omega
    · exact hs

theorem handlePlaceOrder_noFail (inp : CheckoutInput) (st : Store)
    (hv : ¬(inp.address = "" ∨ inp.phone = "")) :
    (handlePlaceOrder inp st noFail).1.orders
        = st.orders ++ ordersSpec inp (itemsBySeller inp.cartItems) st.nextId 0 ∧
    (handlePlaceOrder inp st noFail).1.orderItems
        = st.orderItems ++ itemsSpec inp (itemsBySeller inp.cartItems) st.nextId ∧
    (handlePlaceOrder inp st noFail).1.cart
        = st.cart.filter (fun r => !(r.userId == inp.userId)) ∧
    (handlePlaceOrder inp st noFail).2 = true := by
  have hpg := processGroups_noFail inp (itemsBySeller inp.cartItems) st 0 0
  have hfr := processGroups_frame inp noFail (itemsBySeller inp.cartItems) st 0 0
  unfold handlePlaceOrder
  rw [if_neg hv]
  rcases hE : processGroups inp noFail (itemsBySeller inp.cartItems) st 0 0 with ⟨st1, b, c⟩
  rw [hE] at hpg hfr
  obtain ⟨ho, hi, _, hb⟩ := hpg
  simp only at hb
  subst hb
  simp only [noFail, Bool.false_eq_true, if_false]
  exact ⟨ho, hi, by rw [hfr.2.2.2], by trivial⟩

theorem handlePlaceOrder_cart (inp : CheckoutInput) (st : Store) (fails : Nat → Bool) :
    (handlePlaceOrder inp st fails).1.cart =
      if (handlePlaceOrder inp st fails).2 then
        st.cart.filter (fun r => !(r.userId == inp.userId))
      else st.cart := by
  have hfr := processGroups_frame inp fails (itemsBySeller inp.cartItems) st 0 0
  unfold handlePlaceOrder
  by_cases hv : inp.address = "" ∨ inp.phone = ""
  · rw [if_pos hv]; simp
  · rw [if_neg hv]
    rcases hE : processGroups inp fails (itemsBySeller inp.cartItems) st 0 0 with ⟨st1, b, c⟩
    rw [hE] at hfr
    cases b with
    | false => simpa using hfr.2.2.2
    | true =>
      cases hc : fails c with
      | true => simp [hc]; exact hfr.2.2.2
      | false => simp [hc]; rw [hfr.2.2.2]

theorem handlePlaceOrder_frame (inp : CheckoutInput) (st : Store) (fails : Nat → Bool) :
    (handlePlaceOrder inp st fails).1.products = st.products ∧
    (handlePlaceOrder inp st fails).1.sellers = st.sellers ∧
    (handlePlaceOrder inp st fails).1.reviews = st.reviews := by
  have hfr := processGroups_frame inp fails (itemsBySeller inp.cartItems) st 0 0
  unfold handlePlaceOrder
  by_cases hv : inp.address = "" ∨ inp.phone = ""
  · rw [if_pos hv]; exact ⟨rfl, rfl, rfl⟩
  · rw [if_neg hv]
    rcases hE : processGroups inp fails (itemsBySeller inp.cartItems) st 0 0 with ⟨st1, b, c⟩
    rw [hE] at hfr
    obtain ⟨hp, hs, hr, _⟩ := hfr
    cases b with
    | false => exact ⟨hp, hs, hr⟩
    | true =>
      cases hc : fails c with
      | true => simp [hc]; exact ⟨hp, hs, hr⟩
      | false => simp [hc]; exact ⟨hp, hs, hr⟩


/-! Lemmas about the seller grouping. -/

open scoped List

theorem insertBySeller_cons_pos {k sid : String} (h : k = sid)
    (l : List CartItemWithProduct) (rest : List (String × List CartItemWithProduct))
    (it : CartItemWithProduct) :
    insertBySeller ((k, l) :: rest) sid it = (k, l ++ [it]) :: rest := by
  simp [insertBySeller, h]

theorem insertBySeller_cons_neg {k sid : String} (h : ¬ k = sid)
    (l : List CartItemWithProduct) (rest : List (String × List CartItemWithProduct))
    (it : CartItemWithProduct) :
    insertBySeller ((k, l) :: rest) sid it = (k, l) :: insertBySeller rest sid it := by
  simp [insertBySeller, h]

theorem mem_keys_insertBySeller (sid x : String) (it : CartItemWithProduct) :
    ∀ acc, x ∈ (insertBySeller acc sid it).map Prod.fst ↔
      x ∈ acc.map Prod.fst ∨ x = sid := by
  intro acc
  induction acc with
  | nil => simp [insertBySeller]
  | cons g rest ih =>
    obtain ⟨k, l⟩ := g
    by_cases hk : k = sid
    · rw [insertBySeller_cons_pos hk]
      simp only [List.map_cons, List.mem_cons]
      constructor
      · intro hx; exact Or.inl hx
      · rintro (hx | hx)
        · exact hx
        · exact Or.inl (by rw [hx, ← hk])
    · rw [insertBySeller_cons_neg hk]
      simp only [List.map_cons, List.mem_cons, ih]
      tauto

theorem groupsWF_insertBySeller (sid : String) (it : CartItemWithProduct)
    (hit : sellerIdOf it = some sid) :
    ∀ acc, GroupsWF acc → GroupsWF (insertBySeller acc sid it) := by
  intro acc
  induction acc with
  | nil =>
    intro _
    refine ⟨by simp [insertBySeller], ?_⟩
    intro g hg
    simp only [insertBySeller, List.mem_singleton] at hg
    subst hg
    refine ⟨by simp, ?_⟩
    intro x hx
    simp only [List.mem_singleton] at hx
    subst hx
    exact hit
  | cons p rest ih =>
    intro h
    obtain ⟨k, l⟩ := p
    obtain ⟨hnd, hval⟩ := h
    rw [List.map_cons, List.nodup_cons] at hnd
    by_cases hk : k = sid
    · rw [insertBySeller_cons_pos hk]
      refine ⟨?_, ?_⟩
      · rw [List.map_cons, List.nodup_cons]
        exact hnd
      · intro g hg
        rcases List.mem_cons.mp hg with hg | hg
        · subst hg
          refine ⟨by simp, ?_⟩
          intro x hx
          rcases List.mem_append.mp hx with hx | hx
          · exact (hval (k, l) (List.mem_cons_self _ _)).2 x hx
          · simp only [List.mem_singleton] at hx
            subst hx
            rw [hit, hk]
        · exact hval g (List.mem_cons_of_mem _ hg)
    · have hrest : GroupsWF rest :=
        ⟨hnd.2, fun g hg => hval g (List.mem_cons_of_mem _ hg)⟩
      obtain ⟨ind, ival⟩ := ih hrest
      rw [insertBySeller_cons_neg hk]
      refine ⟨?_, ?_⟩
      · rw [List.map_cons, List.nodup_cons]
        refine ⟨?_, ind⟩
        rw [mem_keys_insertBySeller]
        rintro (hmem | hmem)
        · exact hnd.1 hmem
        · exact hk hmem
      · intro g hg
        rcases List.mem_cons.mp hg with hg | hg
        · subst hg
          exact hval (k, l) (List.mem_cons_self _ _)
        · exact ival g hg

theorem groupsWF_foldl :
    ∀ (its : List CartItemWithProduct) acc, GroupsWF acc →
      GroupsWF (its.foldl groupStep acc) := by
  intro its
  induction its with
  | nil => intro acc h; exact h
  | cons it rest ih =>
    intro acc h
    rw [List.foldl_cons]
    apply ih
    unfold groupStep
    cases hs : sellerIdOf it with
    | none => exact h
    | some sid => exact groupsWF_insertBySeller sid it hs acc h

theorem groupsWF_itemsBySeller (its : List CartItemWithProduct) :
    GroupsWF (itemsBySeller its) := by
  refine groupsWF_foldl its [] ⟨by simp, ?_⟩
  intro g hg
  simp at hg

theorem mem_keys_foldl (x : String) :
    ∀ (its : List CartItemWithProduct) acc,
      x ∈ (its.foldl groupStep acc).map Prod.fst ↔
        x ∈ acc.map Prod.fst ∨ x ∈ its.filterMap sellerIdOf := by
  intro its
  induction its with
  | nil => intro acc; simp
  | cons it rest ih =>
    intro acc
    rw [List.foldl_cons, ih]
    unfold groupStep
    cases hs : sellerIdOf it with
    | none => simp [List.filterMap_cons, hs]
    | some sid =>
      rw [mem_keys_insertBySeller]
      simp only [List.filterMap_cons, hs, List.mem_cons]
      tauto

theorem mem_keys_itemsBySeller (x : String) (its : List CartItemWithProduct) :
    x ∈ (itemsBySeller its).map Prod.fst ↔ x ∈ its.filterMap sellerIdOf := by
  have h := mem_keys_foldl x its []
  simpa using h

theorem flatGroups_insertBySeller (sid : String) (it : CartItemWithProduct) :
    ∀ acc, flatGroups (insertBySeller acc sid it) ~ it :: flatGroups acc := by
  intro acc
  induction acc with
  | nil => simp [insertBySeller, flatGroups]
  | cons g rest ih =>
    obtain ⟨k, l⟩ := g
    by_cases hk : k = sid
    · rw [insertBySeller_cons_pos hk]
      show (l ++ [it]) ++ flatGroups rest ~ it :: (l ++ flatGroups rest)
      exact List.Perm.append_right _ (List.perm_append_singleton it l)
    · rw [insertBySeller_cons_neg hk]
      show l ++ flatGroups (insertBySeller rest sid it) ~ it :: (l ++ flatGroups rest)
      exact (List.Perm.append_left l ih).trans List.perm_middle

theorem flatGroups_foldl :
    ∀ (its : List CartItemWithProduct) acc,
      flatGroups (its.foldl groupStep acc) ~
        flatGroups acc ++ its.filter (fun it => (sellerIdOf it).isSome) := by
  intro its
  induction its with
  | nil => intro acc; simp
  | cons it rest ih =>
    intro acc
    rw [List.foldl_cons, List.filter_cons]
    cases hs : sellerIdOf it with
    | none =>
      simp only [groupStep, hs, Option.isSome_none, Bool.false_eq_true, if_false]
      exact ih acc
    | some sid =>
      simp only [groupStep, hs, Option.isSome_some, if_true]
      have h1 := ih (insertBySeller acc sid it)
      have h2 : flatGroups (insertBySeller acc sid it) ++
            rest.filter (fun it => (sellerIdOf it).isSome) ~
          (it :: flatGroups acc) ++
            rest.filter (fun it => (sellerIdOf it).isSome) :=
        List.Perm.append_right _ (flatGroups_insertBySeller sid it acc)
      refine (h1.trans h2).trans ?_
      exact List.perm_middle.symm

theorem flatGroups_itemsBySeller (its : List CartItemWithProduct) :
    flatGroups (itemsBySeller its) ~
      its.filter (fun it => (sellerIdOf it).isSome) := by
  have h := flatGroups_foldl its []
  simpa [flatGroups] using h

theorem mem_flatGroups (x : CartItemWithProduct) :
    ∀ gs, x ∈ flatGroups gs ↔ ∃ g ∈ gs, x ∈ g.2 := by
  intro gs
  induction gs with
  | nil => simp [flatGroups]
  | cons g rest ih => simp [flatGroups, ih]


/-! Lemmas about the records created by the checkout loop. -/

theorem ordersSpec_length (inp : CheckoutInput) :
    ∀ (gs : List (String × List CartItemWithProduct)) (oid k : Nat),
      (ordersSpec inp gs oid k).length = gs.length := by
  intro gs
  induction gs with
  | nil => intro oid k; rfl
  | cons g rest ih =>
    intro oid k
    obtain ⟨sid, items⟩ := g
    simp [ordersSpec, ih]

theorem ordersSpec_sellerId (inp : CheckoutInput) :
    ∀ (gs : List (String × List CartItemWithProduct)) (oid k : Nat),
      ∀ o ∈ ordersSpec inp gs oid k, o.sellerId ∈ gs.map Prod.fst := by
  intro gs
  induction gs with
  | nil => intro oid k o ho; simp [ordersSpec] at ho
  | cons g rest ih =>
    intro oid k o ho
    obtain ⟨sid, items⟩ := g
    simp only [ordersSpec, List.mem_cons] at ho
    rcases ho with ho | ho
    · subst ho
      exact List.mem_cons_self _ _
    · exact List.mem_cons_of_mem _ (ih (oid + 1) (k + 1) o ho)

theorem ordersSpec_id_lb (inp : CheckoutInput) :
    ∀ (gs : List (String × List CartItemWithProduct)) (oid k : Nat),
      ∀ o ∈ ordersSpec inp gs oid k, oid ≤ o.id := by
  intro gs
  induction gs with
  | nil => intro oid k o ho; simp [ordersSpec] at ho
  | cons g rest ih =>
    intro oid k o ho
    obtain ⟨sid, items⟩ := g
    simp only [ordersSpec, List.mem_cons] at ho
    rcases ho with ho | ho
    · subst ho; exact Nat.le_refl _
    · exact Nat.le_of_succ_le (ih (oid + 1) (k + 1) o ho)

theorem itemsSpec_orderId_lb (inp : CheckoutInput) :
    ∀ (gs : List (String × List CartItemWithProduct)) (oid : Nat),
      ∀ x ∈ itemsSpec inp gs oid, oid ≤ x.orderId := by
  intro gs
  induction gs with
  | nil => intro oid x hx; simp [itemsSpec] at hx
  | cons g rest ih =>
    intro oid x hx
    obtain ⟨sid, items⟩ := g
    simp only [itemsSpec, List.mem_append] at hx
    rcases hx with hx | hx
    · obtain ⟨it, _, rfl⟩ := List.mem_map.mp hx
      exact Nat.le_refl _
    · exact Nat.le_of_succ_le (ih (oid + 1) x hx)

theorem itemsSpec_map_line (inp : CheckoutInput) :
    ∀ (gs : List (String × List CartItemWithProduct)) (oid : Nat),
      (itemsSpec inp gs oid).map itemLine = (flatGroups gs).map cartLine := by
  intro gs
  induction gs with
  | nil => intro oid; rfl
  | cons g rest ih =>
    intro oid
    obtain ⟨sid, items⟩ := g
    simp only [itemsSpec, flatGroups, List.map_append, List.map_map, ih]
    rfl

theorem itemsSpec_subtotal (inp : CheckoutInput) :
    ∀ (gs : List (String × List CartItemWithProduct)) (oid : Nat),
      ∀ oi ∈ itemsSpec inp gs oid,
        oi.subtotal = oi.productPrice * (oi.quantity : ℚ) := by
  intro gs
  induction gs with
  | nil => intro oid oi hoi; simp [itemsSpec] at hoi
  | cons g rest ih =>
    intro oid oi hoi
    obtain ⟨sid, items⟩ := g
    simp only [itemsSpec, List.mem_append] at hoi
    rcases hoi with hoi | hoi
    · obtain ⟨it, _, rfl⟩ := List.mem_map.mp hoi
      rfl
    · exact ih (oid + 1) oi hoi

theorem orderTotal_foldl (l : List CartItemWithProduct) :
    ∀ a : ℚ, l.foldl (fun acc it => acc + priceOf it * (it.quantity : ℚ)) a =
      a + (l.map fun it => priceOf it * (it.quantity : ℚ)).sum := by
  induction l with
  | nil => intro a; simp
  | cons it rest ih =>
    intro a
    rw [List.foldl_cons, ih]
    simp [List.sum_cons]
    ring

theorem orderTotal_eq_sum (l : List CartItemWithProduct) :
    orderTotal l = (l.map fun it => priceOf it * (it.quantity : ℚ)).sum := by
  unfold orderTotal
  rw [orderTotal_foldl]
  simp

theorem itemsSpec_sum_subtotal (inp : CheckoutInput) :
    ∀ (gs : List (String × List CartItemWithProduct)) (oid k : Nat),
      ∀ o ∈ ordersSpec inp gs oid k,
        (((itemsSpec inp gs oid).filter fun x => x.orderId == o.id).map
            OrderItem.subtotal).sum = o.totalAmount := by
  intro gs
  induction gs with
  | nil => intro oid k o ho; simp [ordersSpec] at ho
  | cons g rest ih =>
    intro oid k o ho
    obtain ⟨sid, items⟩ := g
    simp only [ordersSpec, List.mem_cons] at ho
    simp only [itemsSpec, List.filter_append, List.map_append, List.sum_append]
    rcases ho with ho | ho
    · subst ho
      have hhead : (items.map (mkOrderItem inp.userId oid)).filter
          (fun x => x.orderId == (mkOrder inp k oid sid items).id) =
          items.map (mkOrderItem inp.userId oid) := by
        rw [List.filter_eq_self]
        intro a ha
        obtain ⟨it, _, rfl⟩ := List.mem_map.mp ha
        simp [mkOrderItem, mkOrder]
      have htail : (itemsSpec inp rest (oid + 1)).filter
          (fun x => x.orderId == (mkOrder inp k oid sid items).id) = [] := by
        rw [List.filter_eq_nil_iff]
        intro a ha
        have hlb := itemsSpec_orderId_lb inp rest (oid + 1) a ha
        simp only [mkOrder, beq_iff_eq]
        omega
      rw [hhead, htail]
      show ((items.map (mkOrderItem inp.userId oid)).map OrderItem.subtotal).sum + ([] : List ℚ).sum
          = orderTotal items
      rw [List.map_map, orderTotal_eq_sum]
      simp only [List.sum_nil, add_zero]
      rfl
    · have hlb := ordersSpec_id_lb inp rest (oid + 1) (k + 1) o ho
      have hhead : (items.map (mkOrderItem inp.userId oid)).filter
          (fun x => x.orderId == o.id) = [] := by
        rw [List.filter_eq_nil_iff]
        intro a ha
        obtain ⟨it, _, rfl⟩ := List.mem_map.mp ha
        simp only [mkOrderItem, beq_iff_eq]
        omega
      rw [hhead]
      simpa using ih (oid + 1) (k + 1) o ho

theorem length_itemsBySeller_eq_dedup (its : List CartItemWithProduct) :
    (itemsBySeller its).length = (its.filterMap sellerIdOf).dedup.length := by
  have hnd : ((itemsBySeller its).map Prod.fst).Nodup := (groupsWF_itemsBySeller its).1
  have hnd2 : (its.filterMap sellerIdOf).dedup.Nodup := List.nodup_dedup _
  have hfin : ((itemsBySeller its).map Prod.fst).toFinset =
      (its.filterMap sellerIdOf).dedup.toFinset := by
    ext x
    simp only [List.mem_toFinset, List.mem_dedup]
    exact mem_keys_itemsBySeller x its
  have h1 := List.toFinset_card_of_nodup hnd
  have h2 := List.toFinset_card_of_nodup hnd2
  have h3 : ((itemsBySeller its).map Prod.fst).length =
      (its.filterMap sellerIdOf).dedup.length := by
    rw [← h1, ← h2, hfin]
  simpa using h3


/-! Claim theorems for the checkout workflow. -/

/-- Claim C1: on a successful run of `handlePlaceOrder` over a cart whose
lines all resolve to a seller id, exactly one Order per distinct seller id
is created, every created order's seller id is one of the cart's seller
ids, and the multiset of created order lines (product, quantity, unit
price) equals the multiset of the cart's lines — no line lost or
duplicated. -/
theorem claim_C1 (inp : CheckoutInput) (st : Store)
    (hv : ¬(inp.address = "" ∨ inp.phone = ""))
    (hres : ∀ it ∈ inp.cartItems, (sellerIdOf it).isSome = true) :
    (handlePlaceOrder inp st noFail).2 = true ∧
    ∃ os ois,
      (handlePlaceOrder inp st noFail).1.orders = st.orders ++ os ∧
      (handlePlaceOrder inp st noFail).1.orderItems = st.orderItems ++ ois ∧
      os.length = (inp.cartItems.filterMap sellerIdOf).dedup.length ∧
      (∀ o ∈ os, o.sellerId ∈ inp.cartItems.filterMap sellerIdOf) ∧
      (↑(ois.map itemLine) : Multiset (String × Nat × ℚ)) =
        ↑(inp.cartItems.map cartLine) := by
  obtain ⟨ho, hi, _, hs⟩ := handlePlaceOrder_noFail inp st hv
  refine ⟨hs, ordersSpec inp (itemsBySeller inp.cartItems) st.nextId 0,
    itemsSpec inp (itemsBySeller inp.cartItems) st.nextId, ho, hi, ?_, ?_, ?_⟩
  · rw [ordersSpec_length]
    exact length_itemsBySeller_eq_dedup inp.cartItems
  · intro o hoo
    exact (mem_keys_itemsBySeller o.sellerId inp.cartItems).mp
      (ordersSpec_sellerId inp _ st.nextId 0 o hoo)
  · have hperm : (itemsSpec inp (itemsBySeller inp.cartItems) st.nextId).map itemLine ~
        inp.cartItems.map cartLine := by
      rw [itemsSpec_map_line]
      have h1 := flatGroups_itemsBySeller inp.cartItems
      rw [List.filter_eq_self.mpr hres] at h1
      exact h1.map cartLine
    exact Multiset.coe_eq_coe.mpr hperm

/-- Witness for C1: the two-seller sample cart satisfies the hypotheses and
the conclusion of `claim_C1`. -/
theorem claim_C1_witness :
    (¬(exInput.address = "" ∨ exInput.phone = "")) ∧
    (∀ it ∈ exInput.cartItems, (sellerIdOf it).isSome = true) ∧
    ((handlePlaceOrder exInput exStore noFail).2 = true ∧
      ∃ os ois,
        (handlePlaceOrder exInput exStore noFail).1.orders = exStore.orders ++ os ∧
        (handlePlaceOrder exInput exStore noFail).1.orderItems =
          exStore.orderItems ++ ois ∧
        os.length = (exInput.cartItems.filterMap sellerIdOf).dedup.length ∧
        (∀ o ∈ os, o.sellerId ∈ exInput.cartItems.filterMap sellerIdOf) ∧
        (↑(ois.map itemLine) : Multiset (String × Nat × ℚ)) =
          ↑(exInput.cartItems.map cartLine)) :=
  ⟨by decide, by decide, claim_C1 exInput exStore (by decide) (by decide)⟩

/-- Claim C2: on a successful run of `handlePlaceOrder`, for every created
Order the sum of the `subtotal` values of the OrderItem records created for
it equals the order's `totalAmount`, and every created line's subtotal is
its unit price times its quantity. -/
theorem claim_C2 (inp : CheckoutInput) (st : Store)
    (hv : ¬(inp.address = "" ∨ inp.phone = "")) :
    (handlePlaceOrder inp st noFail).2 = true ∧
    ∃ os ois,
      (handlePlaceOrder inp st noFail).1.orders = st.orders ++ os ∧
      (handlePlaceOrder inp st noFail).1.orderItems = st.orderItems ++ ois ∧
      (∀ o ∈ os,
        ((ois.filter fun x => x.orderId == o.id).map OrderItem.subtotal).sum =
          o.totalAmount) ∧
      (∀ oi ∈ ois, oi.subtotal = oi.productPrice * (oi.quantity : ℚ)) := by
  obtain ⟨ho, hi, _, hs⟩ := handlePlaceOrder_noFail inp st hv
  refine ⟨hs, ordersSpec inp (itemsBySeller inp.cartItems) st.nextId 0,
    itemsSpec inp (itemsBySeller inp.cartItems) st.nextId, ho, hi, ?_, ?_⟩
  · intro o hoo
    exact itemsSpec_sum_subtotal inp _ st.nextId 0 o hoo
  · intro oi hoi
    exact itemsSpec_subtotal inp _ st.nextId oi hoi

/-- Witness for C2: the two-seller sample cart satisfies the hypothesis
and the conclusion of `claim_C2`. -/
theorem claim_C2_witness :
    (¬(exInput.address = "" ∨ exInput.phone = "")) ∧
    ((handlePlaceOrder exInput exStore noFail).2 = true ∧
      ∃ os ois,
        (handlePlaceOrder exInput exStore noFail).1.orders = exStore.orders ++ os ∧
        (handlePlaceOrder exInput exStore noFail).1.orderItems =
          exStore.orderItems ++ ois ∧
        (∀ o ∈ os,
          ((ois.filter fun x => x.orderId == o.id).map OrderItem.subtotal).sum =
            o.totalAmount) ∧
        (∀ oi ∈ ois, oi.subtotal = oi.productPrice * (oi.quantity : ℚ))) :=
  ⟨by decide, claim_C2 exInput exStore (by decide)⟩

/-- Counterexample to claim C3 as stated: in the execution where the first
store call of the loop (the first `orders.create`) throws, the run fails
and the buyer's cart rows are all still present — the cart-clearing step
did not run, contradicting "every CartItem belonging to the buyer is
deleted — including executions in which an Order [...] creation fails". -/
theorem claim_C3_counterexample :
    (handlePlaceOrder exInput exStore failFirst).2 = false ∧
    (handlePlaceOrder exInput exStore failFirst).1.orders = exStore.orders ∧
    (handlePlaceOrder exInput exStore failFirst).1.cart = exStore.cart ∧
    exStore.cart.filter (fun r => r.userId == exInput.userId) ≠ [] := by
  decide

/-- Claim C3 (amended): the cart-clearing step deletes every CartItem of
the buyer, in full and not per partition, but only in executions in which
no store call threw (the run reached the success path); in any failing
execution — including an Order or OrderItem creation failing partway
through the loop — the exception skips the deletion and the cart is left
exactly as it was. -/
theorem claim_C3 (inp : CheckoutInput) (st : Store) (fails : Nat → Bool) :
    (handlePlaceOrder inp st fails).1.cart =
      if (handlePlaceOrder inp st fails).2 then
        st.cart.filter (fun r => !(r.userId == inp.userId))
      else st.cart :=
  handlePlaceOrder_cart inp st fails

/-- Claim C8: a checkout attempt with an empty delivery address or an empty
phone is rejected by the validation gate before any store write: the store
is returned unchanged — no Order, no OrderItem created, no CartItem
deleted — and the run does not reach the success path. -/
theorem claim_C8 (inp : CheckoutInput) (st : Store) (fails : Nat → Bool)
    (h : inp.address = "" ∨ inp.phone = "") :
    handlePlaceOrder inp st fails = (st, false) := by
  unfold handlePlaceOrder
  rw [if_pos h]

/-- Witness for C8: the sample input with an empty address is rejected with
the store unchanged. -/
theorem claim_C8_witness :
    (exInputNoAddr.address = "" ∨ exInputNoAddr.phone = "") ∧
    handlePlaceOrder exInputNoAddr exStore noFail = (exStore, false) :=
  ⟨Or.inl rfl, claim_C8 exInputNoAddr exStore noFail (Or.inl rfl)⟩

/-- Claim C9: on a successful run, a cart line whose product lookup yields
no seller id is excluded from every seller partition, the created order
lines correspond exactly to the resolvable cart lines (so the orphan line
produces no OrderItem), yet the final cart clearing still deletes every
cart row of the buyer — the orphan line is silently dropped while the run
reports success. -/
theorem claim_C9 (inp : CheckoutInput) (st : Store)
    (hv : ¬(inp.address = "" ∨ inp.phone = ""))
    (it0 : CartItemWithProduct) (_h0 : it0 ∈ inp.cartItems)
    (hnone : sellerIdOf it0 = none) :
    (handlePlaceOrder inp st noFail).2 = true ∧
    (∀ g ∈ itemsBySeller inp.cartItems, it0 ∉ g.2) ∧
    (∃ ois, (handlePlaceOrder inp st noFail).1.orderItems = st.orderItems ++ ois ∧
      (↑(ois.map itemLine) : Multiset (String × Nat × ℚ)) =
        ↑((inp.cartItems.filter fun it => (sellerIdOf it).isSome).map cartLine)) ∧
    (∀ r ∈ st.cart, r.userId = inp.userId →
      r ∉ (handlePlaceOrder inp st noFail).1.cart) := by
  obtain ⟨_, hi, hc, hs⟩ := handlePlaceOrder_noFail inp st hv
  refine ⟨hs, ?_, ?_, ?_⟩
  · intro g hg hmem
    have hval := ((groupsWF_itemsBySeller inp.cartItems).2 g hg).2 it0 hmem
    rw [hnone] at hval
    exact Option.noConfusion hval
  · refine ⟨itemsSpec inp (itemsBySeller inp.cartItems) st.nextId, hi, ?_⟩
    have hperm : (itemsSpec inp (itemsBySeller inp.cartItems) st.nextId).map itemLine ~
        (inp.cartItems.filter fun it => (sellerIdOf it).isSome).map cartLine := by
      rw [itemsSpec_map_line]
      exact (flatGroups_itemsBySeller inp.cartItems).map cartLine
    exact Multiset.coe_eq_coe.mpr hperm
  · intro r hr hru hmem
    rw [hc] at hmem
    have := List.of_mem_filter hmem
    rw [hru] at this
    simp at this

/-- Witness for C9: the sample cart with one resolvable line and one orphan
line satisfies the hypotheses and the conclusion of `claim_C9`. -/
theorem claim_C9_witness :
    (¬(exInputOrphan.address = "" ∨ exInputOrphan.phone = "")) ∧
    exOrphan ∈ exInputOrphan.cartItems ∧
    sellerIdOf exOrphan = none ∧
    ((handlePlaceOrder exInputOrphan exStore noFail).2 = true ∧
      (∀ g ∈ itemsBySeller exInputOrphan.cartItems, exOrphan ∉ g.2) ∧
      (∃ ois, (handlePlaceOrder exInputOrphan exStore noFail).1.orderItems =
          exStore.orderItems ++ ois ∧
        (↑(ois.map itemLine) : Multiset (String × Nat × ℚ)) =
          ↑((exInputOrphan.cartItems.filter fun it =>
              (sellerIdOf it).isSome).map cartLine)) ∧
      (∀ r ∈ exStore.cart, r.userId = exInputOrphan.userId →
        r ∉ (handlePlaceOrder exInputOrphan exStore noFail).1.cart)) :=
  ⟨by decide, by decide, by decide,
    claim_C9 exInputOrphan exStore (by decide) exOrphan (by decide) (by decide)⟩

/-- Claim C10: order placement never writes to the products, sellers or
reviews collections — in every execution, failing or not, stock quantities,
availability flags, seller totals and rating aggregates are exactly as
before; only orders, orderItems and cart can change. -/
theorem claim_C10 (inp : CheckoutInput) (st : Store) (fails : Nat → Bool) :
    (handlePlaceOrder inp st fails).1.products = st.products ∧
    (handlePlaceOrder inp st fails).1.sellers = st.sellers ∧
    (handlePlaceOrder inp st fails).1.reviews = st.reviews :=
  handlePlaceOrder_frame inp st fails


/-! Claim theorems for the order status state machine. -/

/-- Counterexample to claim C4 as stated: `updateOrderStatus` does not
reject a status-changing call on a `delivered` order — calling it with
`pending` on the sample delivered order overwrites the stored status. -/
theorem claim_C4_counterexample :
    (updateOrderStatus exStoreDelivered 7 OrderStatus.pending).orders.map Order.status
      = [OrderStatus.pending] ∧
    exStoreDelivered.orders.map Order.status = [OrderStatus.delivered] := by
  decide

/-- Claim C4 (amended): terminal statuses are enforced only by UI omission —
the seller dashboard renders no status-changing action for an order in
`delivered` or `cancelled` — while `updateOrderStatus` itself is unguarded:
a direct call sets any requested status on the matching order instead of
being rejected. -/
theorem claim_C4 :
    sellerNextAction OrderStatus.delivered = none ∧
    sellerNextAction OrderStatus.cancelled = none ∧
    ∀ (st : Store) (oid : Nat) (s : OrderStatus) (o : Order),
      o ∈ st.orders → o.id = oid →
        { o with status := s } ∈ (updateOrderStatus st oid s).orders := by
  refine ⟨rfl, rfl, ?_⟩
  intro st oid s o ho hid
  subst hid
  unfold updateOrderStatus
  have hm := List.mem_map_of_mem
    (fun x => if x.id == o.id then { x with status := s } else x) ho
  simp only [beq_self_eq_true, if_true] at hm
  exact hm

/-- Witness for C4: the amended claim applied to the sample delivered
order, requested status `pending`. -/
theorem claim_C4_witness :
    exOrderDelivered ∈ exStoreDelivered.orders ∧
    exOrderDelivered.id = 7 ∧
    { exOrderDelivered with status := OrderStatus.pending } ∈
      (updateOrderStatus exStoreDelivered 7 OrderStatus.pending).orders :=
  ⟨by decide, by decide,
    claim_C4.2.2 exStoreDelivered 7 OrderStatus.pending exOrderDelivered
      (by decide) (by decide)⟩


/-! Lemmas about review submission. -/

theorem submitOneReview_sellers (u : String) (oid : Nat) (sid : String)
    (ratings : String → ℚ) (comments : String → String) (st : Store)
    (item : OrderItem) :
    (submitOneReview u oid sid ratings comments st item).sellers = st.sellers := by
  simp only [submitOneReview]
  split <;> rfl

theorem foldl_submit_sellers (u : String) (oid : Nat) (sid : String)
    (ratings : String → ℚ) (comments : String → String) :
    ∀ (items : List OrderItem) (st : Store),
      (items.foldl (submitOneReview u oid sid ratings comments) st).sellers =
        st.sellers := by
  intro items
  induction items with
  | nil => intro st; rfl
  | cons item rest ih =>
    intro st
    rw [List.foldl_cons, ih, submitOneReview_sellers]

theorem submitOneReview_products_none (u : String) (oid : Nat) (sid : String)
    (ratings : String → ℚ) (comments : String → String) (st : Store)
    (item : OrderItem)
    (h : st.products.find? (fun p => p.id == item.productId) = none) :
    (submitOneReview u oid sid ratings comments st item).products = st.products := by
  simp only [submitOneReview]
  rw [h]

theorem submitOneReview_products_some (u : String) (oid : Nat) (sid : String)
    (ratings : String → ℚ) (comments : String → String) (st : Store)
    (item : OrderItem) (prod : Product)
    (h : st.products.find? (fun p => p.id == item.productId) = some prod) :
    (submitOneReview u oid sid ratings comments st item).products =
      st.products.map (fun p =>
        if p.id == item.productId then
          { p with
            ratingAverage := (reviewedProduct prod (ratings item.productId)).ratingAverage
            totalReviews := (reviewedProduct prod (ratings item.productId)).totalReviews }
        else p) := by
  simp only [submitOneReview]
  rw [h]

theorem submitOneReview_products_char (u : String) (oid : Nat) (sid : String)
    (ratings : String → ℚ) (comments : String → String) (st : Store)
    (item : OrderItem) (hN : (st.products.map Product.id).Nodup) :
    (submitOneReview u oid sid ratings comments st item).products =
      st.products.map (fun p =>
        if p.id == item.productId then reviewedProduct p (ratings item.productId)
        else p) := by
  cases hfind : st.products.find? (fun p => p.id == item.productId) with
  | none =>
    rw [submitOneReview_products_none u oid sid ratings comments st item hfind]
    have hall := List.find?_eq_none.mp hfind
    have hcong : ∀ p ∈ st.products,
        (if p.id == item.productId then reviewedProduct p (ratings item.productId)
         else p) = id p := by
      intro p hp
      rw [if_neg]
      · rfl
      · exact fun hb => hall p hp hb
    rw [List.map_congr_left hcong, List.map_id]
  | some prod =>
    have hmem := List.mem_of_find?_eq_some hfind
    have hpid : prod.id = item.productId := by
      have := List.find?_some hfind
      simpa using this
    rw [submitOneReview_products_some u oid sid ratings comments st item prod hfind]
    apply List.map_congr_left
    intro p hp
    by_cases hpp : (p.id == item.productId) = true
    · have hpe : p = prod := by
        apply List.inj_on_of_nodup_map hN hp hmem
        rw [hpid]
        exact beq_iff_eq.mp hpp
      rw [if_pos hpp, if_pos hpp]
      subst hpe
      rfl
    · rw [if_neg hpp, if_neg hpp]

theorem submitOneReview_products_id (u : String) (oid : Nat) (sid : String)
    (ratings : String → ℚ) (comments : String → String) (st : Store)
    (item : OrderItem) (hN : (st.products.map Product.id).Nodup) :
    ((submitOneReview u oid sid ratings comments st item).products).map Product.id =
      st.products.map Product.id := by
  rw [submitOneReview_products_char u oid sid ratings comments st item hN,
    List.map_map]
  apply List.map_congr_left
  intro p _
  show ((if p.id == item.productId then reviewedProduct p (ratings item.productId)
      else p)).id = p.id
  by_cases hpp : (p.id == item.productId) = true
  · rw [if_pos hpp]; rfl
  · rw [if_neg hpp]

theorem foldl_submit_products_char (u : String) (oid : Nat) (sid : String)
    (ratings : String → ℚ) (comments : String → String) :
    ∀ (items : List OrderItem) (st : Store),
      (st.products.map Product.id).Nodup →
      (items.map OrderItem.productId).Nodup →
      (items.foldl (submitOneReview u oid sid ratings comments) st).products =
        st.products.map (fun p =>
          if p.id ∈ items.map OrderItem.productId then reviewedProduct p (ratings p.id)
          else p) := by
  intro items
  induction items with
  | nil =>
    intro st _ _
    have hcong : ∀ p ∈ st.products,
        (if p.id ∈ ([] : List OrderItem).map OrderItem.productId then
          reviewedProduct p (ratings p.id) else p) = id p := by
      intro p _
      rw [if_neg]
      · rfl
      · simp
    rw [List.foldl_nil, List.map_congr_left hcong, List.map_id]
  | cons item rest ih =>
    intro st hN hI
    rw [List.foldl_cons]
    have hchar := submitOneReview_products_char u oid sid ratings comments st item hN
    have hN2 : (((submitOneReview u oid sid ratings comments st item).products).map
        Product.id).Nodup := by
      rw [submitOneReview_products_id u oid sid ratings comments st item hN]
      exact hN
    rw [List.map_cons] at hI
    obtain ⟨hhead, hI2⟩ := List.nodup_cons.mp hI
    rw [ih _ hN2 hI2, hchar, List.map_map]
    apply List.map_congr_left
    intro p hp
    show (if ((if p.id == item.productId then
          reviewedProduct p (ratings item.productId) else p)).id ∈
          rest.map OrderItem.productId then
        reviewedProduct ((if p.id == item.productId then
          reviewedProduct p (ratings item.productId) else p))
          (ratings ((if p.id == item.productId then
            reviewedProduct p (ratings item.productId) else p)).id)
      else ((if p.id == item.productId then
        reviewedProduct p (ratings item.productId) else p))) =
      (if p.id ∈ (item :: rest).map OrderItem.productId then
        reviewedProduct p (ratings p.id) else p)
    by_cases hpp : (p.id == item.productId) = true
    · have hpe : p.id = item.productId := beq_iff_eq.mp hpp
      rw [if_pos hpp]
      have hout : (reviewedProduct p (ratings item.productId)).id ∉
          rest.map OrderItem.productId := by
        show p.id ∉ rest.map OrderItem.productId
        rw [hpe]
        exact hhead
      rw [if_neg hout, if_pos (by simp [hpe]), hpe]
    · rw [if_neg hpp]
      have hpe : ¬ p.id = item.productId := fun h => hpp (beq_iff_eq.mpr h)
      by_cases hr : p.id ∈ rest.map OrderItem.productId
      · rw [if_pos hr, if_pos (by simp [hr])]
      · rw [if_neg hr, if_neg (by simp [hpe, hr])]

theorem handleSubmit_products (userId : String) (order : Order)
    (items : List OrderItem) (ratings : String → ℚ)
    (comments : String → String) (st : Store) :
    (handleSubmit userId order items ratings comments st).products =
      (items.foldl (submitOneReview userId order.id order.sellerId ratings comments)
        st).products := by
  simp only [handleSubmit]
  split <;> rfl


/-! Claim theorems for review submission. -/

/-- Claim C5: a review submission updates each reviewed product's stored
aggregates by the running-mean rule — the new `ratingAverage` is
`(old average × old count + submitted rating) / (old count + 1)` and
`totalReviews` grows by exactly one. -/
theorem claim_C5 (userId : String) (order : Order) (items : List OrderItem)
    (ratings : String → ℚ) (comments : String → String) (st : Store)
    (hN : (st.products.map Product.id).Nodup)
    (hI : (items.map OrderItem.productId).Nodup)
    (item : OrderItem) (hitem : item ∈ items)
    (p : Product) (hp : p ∈ st.products) (hid : p.id = item.productId) :
    ∃ q ∈ (handleSubmit userId order items ratings comments st).products,
      q.id = p.id ∧
      q.ratingAverage = (p.ratingAverage * (p.totalReviews : ℚ) + ratings p.id) /
        ((p.totalReviews : ℚ) + 1) ∧
      q.totalReviews = p.totalReviews + 1 := by
  rw [handleSubmit_products,
    foldl_submit_products_char userId order.id order.sellerId ratings comments
      items st hN hI]
  have hin : p.id ∈ items.map OrderItem.productId := by
    rw [hid]
    exact List.mem_map_of_mem OrderItem.productId hitem
  refine ⟨reviewedProduct p (ratings p.id), ?_, rfl, rfl, rfl⟩
  refine List.mem_map.mpr ⟨p, hp, ?_⟩
  show (if p.id ∈ items.map OrderItem.productId then
      reviewedProduct p (ratings p.id) else p) = reviewedProduct p (ratings p.id)
  rw [if_pos hin]

/-- Witness for C5: submitting a rating of 5 for the sample product at
aggregates (4, 2) yields aggregates (13/3, 3). -/
theorem claim_C5_witness :
    ((exStoreReview.products.map Product.id).Nodup) ∧
    (([exOrderItem1].map OrderItem.productId).Nodup) ∧
    exOrderItem1 ∈ [exOrderItem1] ∧
    exProduct1 ∈ exStoreReview.products ∧
    exProduct1.id = exOrderItem1.productId ∧
    exProduct1.ratingAverage = 4 ∧ exProduct1.totalReviews = 2 ∧
    ∃ q ∈ (handleSubmit "u" exOrderDelivered [exOrderItem1] (fun _ => 5)
        (fun _ => "") exStoreReview).products,
      q.id = exProduct1.id ∧
      q.ratingAverage = 13 / 3 ∧
      q.totalReviews = 3 := by
  refine ⟨by decide, by decide, by decide, by decide, by decide, by decide,
    by decide, ?_⟩
  obtain ⟨q, hq, h1, h2, h3⟩ := claim_C5 "u" exOrderDelivered [exOrderItem1]
    (fun _ => 5) (fun _ => "") exStoreReview (by decide) (by decide)
    exOrderItem1 (by decide) exProduct1 (by decide) (by decide)
  refine ⟨q, hq, h1, ?_, h3⟩
  rw [h2]
  norm_num [exProduct1]

/-- Claim C7: a review submission adds the number of order lines of the
reviewed order to the seller's `totalReviews` and leaves the seller's
`ratingAverage` (and every other seller field) unchanged. -/
theorem claim_C7 (userId : String) (order : Order) (items : List OrderItem)
    (ratings : String → ℚ) (comments : String → String) (st : Store)
    (hS : (st.sellers.map Seller.id).Nodup)
    (sel : Seller) (hsel : sel ∈ st.sellers) (hid : sel.id = order.sellerId) :
    ∃ s ∈ (handleSubmit userId order items ratings comments st).sellers,
      s.id = sel.id ∧
      s.totalReviews = sel.totalReviews + items.length ∧
      s.ratingAverage = sel.ratingAverage ∧
      s.totalOrders = sel.totalOrders ∧
      s.totalEarnings = sel.totalEarnings := by
  have hfold := foldl_submit_sellers userId order.id order.sellerId ratings
    comments items st
  simp only [handleSubmit]
  rw [hfold]
  cases hfind : st.sellers.find? (fun s => s.id == order.sellerId) with
  | none =>
    exfalso
    have hall := List.find?_eq_none.mp hfind sel hsel
    exact hall (beq_iff_eq.mpr hid)
  | some sel2 =>
    have hmem2 := List.mem_of_find?_eq_some hfind
    have hid2 : sel2.id = order.sellerId := by
      have := List.find?_some hfind
      simpa using this
    have heq : sel2 = sel :=
      List.inj_on_of_nodup_map hS hmem2 hsel (by rw [hid2, hid])
    subst heq
    refine ⟨{ sel2 with totalReviews := sel2.totalReviews + items.length },
      ?_, rfl, rfl, rfl, rfl, rfl⟩
    refine List.mem_map.mpr ⟨sel2, hsel, ?_⟩
    show (if sel2.id == order.sellerId then
        { sel2 with totalReviews := sel2.totalReviews + items.length } else sel2) =
      { sel2 with totalReviews := sel2.totalReviews + items.length }
    rw [if_pos (beq_iff_eq.mpr hid2)]

/-- Witness for C7: the sample seller at `totalReviews = 10` with a
one-line order ends at `totalReviews = 11` with `ratingAverage`
unchanged at 2. -/
theorem claim_C7_witness :
    ((exStoreReview.sellers.map Seller.id).Nodup) ∧
    exSeller1 ∈ exStoreReview.sellers ∧
    exSeller1.id = exOrderDelivered.sellerId ∧
    ∃ s ∈ (handleSubmit "u" exOrderDelivered [exOrderItem1] (fun _ => 5)
        (fun _ => "") exStoreReview).sellers,
      s.id = exSeller1.id ∧
      s.totalReviews = exSeller1.totalReviews + [exOrderItem1].length ∧
      s.ratingAverage = exSeller1.ratingAverage ∧
      s.totalOrders = exSeller1.totalOrders ∧
      s.totalEarnings = exSeller1.totalEarnings :=
  ⟨by decide, by decide, by decide,
    claim_C7 "u" exOrderDelivered [exOrderItem1] (fun _ => 5) (fun _ => "")
      exStoreReview (by decide) exSeller1 (by decide) (by decide)⟩


/-! Lemmas about add-to-cart. -/

theorem addToCart_cart_new (st : Store) (u pid : String) (q : Nat)
    (hnone : st.cart.filter (fun c => c.userId == u && c.productId == pid) = []) :
    (addToCart st u pid q).cart =
      st.cart ++ [{ id := st.nextId, userId := u, productId := pid, quantity := q }] := by
  have hfind : st.cart.find? (fun c => c.userId == u && c.productId == pid) = none := by
    rw [List.find?_eq_none]
    intro x hx hpx
    have : x ∈ st.cart.filter (fun c => c.userId == u && c.productId == pid) :=
      List.mem_filter.mpr ⟨hx, hpx⟩
    rw [hnone] at this
    simp at this
  unfold addToCart
  rw [hfind]

theorem addToCart_filter_one (st : Store) (u pid : String) (q : Nat) (e : CartItem)
    (hone : st.cart.filter (fun c => c.userId == u && c.productId == pid) = [e]) :
    (addToCart st u pid q).cart.filter
        (fun c => c.userId == u && c.productId == pid) =
      [{ e with quantity := e.quantity + q }] ∧
    (addToCart st u pid q).cart.length = st.cart.length := by
  have hein : e ∈ st.cart.filter (fun c => c.userId == u && c.productId == pid) := by
    rw [hone]
    exact List.mem_singleton_self e
  obtain ⟨hecart, hepred⟩ := List.mem_filter.mp hein
  cases hfind : st.cart.find? (fun c => c.userId == u && c.productId == pid) with
  | none =>
    exfalso
    exact List.find?_eq_none.mp hfind e hecart hepred
  | some ex =>
    have hexcart := List.mem_of_find?_eq_some hfind
    have hexpred := List.find?_some hfind
    have hexe : ex = e := by
      have : ex ∈ st.cart.filter (fun c => c.userId == u && c.productId == pid) :=
        List.mem_filter.mpr ⟨hexcart, hexpred⟩
      rw [hone] at this
      simpa using this
    subst hexe
    have hcart : (addToCart st u pid q).cart =
        st.cart.map (fun c => if c.id == ex.id then
          { c with quantity := ex.quantity + q } else c) := by
      unfold addToCart
      rw [hfind]
    constructor
    · rw [hcart, List.filter_map]
      have hpcong : st.cart.filter
          ((fun c => c.userId == u && c.productId == pid) ∘
            (fun c => if c.id == ex.id then
              { c with quantity := ex.quantity + q } else c)) =
          st.cart.filter (fun c => c.userId == u && c.productId == pid) := by
        apply List.filter_congr
        intro c _
        show ((if c.id == ex.id then
          { c with quantity := ex.quantity + q } else c).userId == u &&
          (if c.id == ex.id then
            { c with quantity := ex.quantity + q } else c).productId == pid) =
          (c.userId == u && c.productId == pid)
        by_cases hc : (c.id == ex.id) = true
        · rw [if_pos hc]
        · rw [if_neg hc]
      rw [hpcong, hone, List.map_singleton]
      show [if ex.id == ex.id then { ex with quantity := ex.quantity + q } else ex] = _
      rw [if_pos (beq_self_eq_true ex.id)]
    · rw [hcart, List.length_map]

theorem addToCartAll_filter_one (u pid : String) :
    ∀ (qs : List Nat) (st : Store) (e : CartItem),
      st.cart.filter (fun c => c.userId == u && c.productId == pid) = [e] →
      (addToCartAll st u pid qs).cart.filter
          (fun c => c.userId == u && c.productId == pid) =
        [{ e with quantity := e.quantity + qs.sum }] ∧
      (addToCartAll st u pid qs).cart.length = st.cart.length := by
  intro qs
  induction qs with
  | nil =>
    intro st e h
    refine ⟨?_, rfl⟩
    have hrec : ({ e with quantity := e.quantity + ([] : List Nat).sum } : CartItem) = e := by
      show ({ e with quantity := e.quantity + 0 } : CartItem) = e
      rw [Nat.add_zero]
    rw [hrec]
    exact h
  | cons q qs ih =>
    intro st e h
    obtain ⟨h1, h2⟩ := addToCart_filter_one st u pid q e h
    obtain ⟨h3, h4⟩ := ih (addToCart st u pid q) _ h1
    refine ⟨?_, ?_⟩
    · show (addToCartAll (addToCart st u pid q) u pid qs).cart.filter _ = _
      rw [h3]
      have hq : ({ e with quantity := e.quantity + q } : CartItem).quantity + qs.sum
          = e.quantity + (q :: qs).sum := by
        show e.quantity + q + qs.sum = e.quantity + (q :: qs).sum
        rw [List.sum_cons]
        omega
      rw [hq]
    · show (addToCartAll (addToCart st u pid q) u pid qs).cart.length = _
      rw [h4, h2]

/-- Claim C6: starting from a store with no cart row for the pair
`(u, pid)`, a nonempty sequence of `addToCart` calls with quantities `qs`
leaves exactly one cart row for that pair, its quantity is the sum of all
the quantities passed, and the whole cart grew by exactly one row — a
repeated add updates the existing row instead of inserting a second one. -/
theorem claim_C6 (st : Store) (u pid : String) (qs : List Nat)
    (hempty : st.cart.filter (fun c => c.userId == u && c.productId == pid) = [])
    (hne : qs ≠ []) :
    ((addToCartAll st u pid qs).cart.filter
        (fun c => c.userId == u && c.productId == pid)).map CartItem.quantity
      = [qs.sum] ∧
    (addToCartAll st u pid qs).cart.length = st.cart.length + 1 := by
  cases qs with
  | nil => exact absurd rfl hne
  | cons q qs =>
    have hnew := addToCart_cart_new st u pid q hempty
    have hfil : (addToCart st u pid q).cart.filter
        (fun c => c.userId == u && c.productId == pid) =
        [{ id := st.nextId, userId := u, productId := pid, quantity := q }] := by
      rw [hnew, List.filter_append, hempty]
      simp
    obtain ⟨h3, h4⟩ := addToCartAll_filter_one u pid qs (addToCart st u pid q) _ hfil
    refine ⟨?_, ?_⟩
    · show (((addToCartAll (addToCart st u pid q) u pid qs).cart.filter _).map
        CartItem.quantity) = _
      rw [h3, List.map_singleton]
      show [q + qs.sum] = [(q :: qs).sum]
      rw [List.sum_cons]
    · show (addToCartAll (addToCart st u pid q) u pid qs).cart.length = _
      rw [h4, hnew, List.length_append]
      rfl

/-- Witness for C6: three adds of quantities 2, 3, 4 on an empty cart end
with one row of quantity 9 and a cart of length 1. -/
theorem claim_C6_witness :
    (exStoreEmpty.cart.filter
        (fun c => c.userId == "u" && c.productId == "p1") = []) ∧
    (([2, 3, 4] : List Nat) ≠ []) ∧
    (((addToCartAll exStoreEmpty "u" "p1" [2, 3, 4]).cart.filter
        (fun c => c.userId == "u" && c.productId == "p1")).map CartItem.quantity
      = [9] ∧
    (addToCartAll exStoreEmpty "u" "p1" [2, 3, 4]).cart.length =
      exStoreEmpty.cart.length + 1) :=
  ⟨rfl, by decide, claim_C6 exStoreEmpty "u" "p1" [2, 3, 4] rfl (by decide)⟩

end Craftora
